import Mathlib

/-!
# HyperWol: registry construction, inventory scan and listener start-up

A shallow embedding of `hyperwol.go`.

* A Go `string` is a sequence of bytes, `GoString := List Nat` (every byte is a
  natural number below 256; `len` is the number of bytes and `s[i:j]` slices bytes).
* An `error` value is represented by its message; `nil` is `none`.
* Calls that leave the process (PowerShell commands, file-system calls, the wait on the
  `configReady` channel) take their outcome from an explicit environment argument, so
  every function below is a total, computable function of its inputs.
* Event-log calls are kept as a list of `LogEntry` values in program order.
* `configMutex` is taken and released around code that is modelled as one sequential
  step; it has no state of its own in the embedding.
-/

namespace HyperWol

/-! ## Strings -/

/-- A Go string, as its bytes. -/
abbrev GoString := List Nat

/-- The bytes (UTF-8) of a string literal of the source. -/
def str (s : String) : GoString :=
  s.data.flatMap (fun c => (String.utf8EncodeChar c).map UInt8.toNat)

deriving instance DecidableEq for Except

/-- Slice expression `s[i:j]` on bytes. -/
def slice (s : GoString) (i j : Nat) : GoString := (s.take j).drop i

/-- UTF-8 encodings of the code points for which `unicode.IsSpace` holds:
tab, LF, VT, FF, CR, space, U+0085, U+00A0, U+1680, U+2000..U+200A, U+2028, U+2029,
U+202F, U+205F, U+3000. -/
def spaceEncodings : List GoString :=
  [[0x09], [0x0A], [0x0B], [0x0C], [0x0D], [0x20], [0xC2, 0x85], [0xC2, 0xA0],
   [0xE1, 0x9A, 0x80],
   [0xE2, 0x80, 0x80], [0xE2, 0x80, 0x81], [0xE2, 0x80, 0x82], [0xE2, 0x80, 0x83],
   [0xE2, 0x80, 0x84], [0xE2, 0x80, 0x85], [0xE2, 0x80, 0x86], [0xE2, 0x80, 0x87],
   [0xE2, 0x80, 0x88], [0xE2, 0x80, 0x89], [0xE2, 0x80, 0x8A],
   [0xE2, 0x80, 0xA8], [0xE2, 0x80, 0xA9], [0xE2, 0x80, 0xAF], [0xE2, 0x81, 0x9F],
   [0xE3, 0x80, 0x80]]

/-- Strip one leading occurrence of one of `encs`, if there is one. -/
def stripOne (encs : List GoString) (s : GoString) : Option GoString :=
  match encs.find? (fun e => e.isPrefixOf s) with
  | some e => some (s.drop e.length)
  | none => none

/-- Strip leading occurrences of `encs` repeatedly; `fuel` bounds the number of rounds. -/
def stripLeading (encs : List GoString) : Nat → GoString → GoString
  | 0, s => s
  | fuel + 1, s =>
    match stripOne encs s with
    | some rest => stripLeading encs fuel rest
    | none => s

/-- Go `strings.TrimSpace`: remove leading and trailing white-space runes. Trailing runes are
removed by stripping the reversed encodings from the reversed string. -/
def TrimSpace (s : GoString) : GoString :=
  let l := stripLeading spaceEncodings s.length s
  (stripLeading (spaceEncodings.map List.reverse) l.length l.reverse).reverse

/-- Go `strings.Split(s, sep)` for a one-byte separator: the maximal pieces between
separators; the empty string gives one empty piece. -/
def Split (sep : Nat) : GoString → List GoString
  | [] => [[]]
  | c :: s =>
    if c = sep then [] :: Split sep s
    else
      match Split sep s with
      | [] => [[c]]
      | piece :: rest => (c :: piece) :: rest

/-- Decimal rendering of a natural number (`%d`). -/
def natDec (n : Nat) : GoString := (Nat.toDigits 10 n).map Char.toNat

/-- Decimal rendering of an integer (`%d`). -/
def intDec (i : Int) : GoString :=
  if i < 0 then 0x2D :: natDec i.natAbs else natDec i.natAbs

/-- Rendering of a `[]string` under `%v`: the elements separated by blanks, in brackets. -/
def fmtStrings (xs : List GoString) : GoString :=
  str "[" ++ List.intercalate (str " ") xs ++ str "]"

/-! ## Event log -/

/-- Severity of an event-log record. -/
inductive Severity
  | info
  | warning
  | error
  deriving DecidableEq, Repr

/-- One event-log record. -/
structure LogEntry where
  sev : Severity
  msg : GoString
  deriving DecidableEq, Repr

/-! ## Inventory scan -/

/-- Outcome of `cmd.CombinedOutput()`: the combined output and the error, if any. -/
structure CmdResult where
  output : GoString
  err : Option GoString
  deriving DecidableEq, Repr

/-- The PowerShell host: the outcome of running a command line. -/
abbrev Shell := GoString → CmdResult

/-- Go struct `VMInfo`. -/
structure VMInfo where
  Name : GoString
  MAC : GoString
  deriving DecidableEq, Repr

/-- The command line built by `getVMMacAddress`. -/
def adapterCommand (vmName : GoString) : GoString :=
  str "(Get-VMNetworkAdapter -VMName '" ++ vmName ++ str "').MacAddress"

/-- Go `getVMMacAddress`: query the adapter MAC of a VM and format it with colons. -/
def getVMMacAddress (sh : Shell) (vmName : GoString) : Except GoString GoString :=
  let r := sh (adapterCommand vmName)
  match r.err with
  | some _ => .error (str "failed to get MAC address: " ++ TrimSpace r.output)
  | none =>
    let mac := TrimSpace r.output
    if mac.length ≠ 12 then
      .error (str "invalid MAC address format: " ++ mac)
    else
      .ok (slice mac 0 2 ++ str ":" ++ slice mac 2 4 ++ str ":" ++ slice mac 4 6 ++ str ":" ++
        slice mac 6 8 ++ str ":" ++ slice mac 8 10 ++ str ":" ++ slice mac 10 12)

/-- The command line that enumerates VM names in `listVMs`. -/
def listCommand : GoString :=
  str "(Get-VM | Select-Object -ExpandProperty Name) -join ','"

/-- The body of the `for _, name := range vmNames` loop of `listVMs`: the records appended
to `vms` and the log records written, in order. -/
def scanNames (sh : Shell) : List GoString → List VMInfo × List LogEntry
  | [] => ([], [])
  | raw :: rest =>
    let name := TrimSpace raw
    let tail := scanNames sh rest
    if name = [] then
      (tail.1, ⟨.info, str "Skipping empty VM name"⟩ :: tail.2)
    else
      match getVMMacAddress sh name with
      | .error e =>
        (tail.1,
          ⟨.info, str "Querying MAC for VM: " ++ name⟩ ::
          ⟨.warning, str "Skipping VM " ++ name ++ str " due to MAC error: " ++ e⟩ :: tail.2)
      | .ok mac =>
        (⟨name, mac⟩ :: tail.1,
          ⟨.info, str "Querying MAC for VM: " ++ name⟩ ::
          ⟨.info, str "VM " ++ name ++ str " MAC: " ++ mac⟩ :: tail.2)

/-- Result of `listVMs`: the slice, the error and the log records written. -/
structure ListResult where
  vms : List VMInfo
  err : Option GoString
  log : List LogEntry
  deriving DecidableEq, Repr

/-- Go `listVMs`: enumerate the VM names, then query the MAC of each. -/
def listVMs (sh : Shell) : ListResult :=
  let start : LogEntry := ⟨.info, str "Listing Hyper-V VMs..."⟩
  let r := sh listCommand
  match r.err with
  | some e =>
    { vms := []
      err := some (str "failed to list VMs: " ++ TrimSpace r.output)
      log := [start, ⟨.error, str "Failed to list VMs: " ++ TrimSpace r.output ++
        str ", error: " ++ e⟩] }
  | none =>
    let vmNames := Split 0x2C (TrimSpace r.output)
    let found : LogEntry := ⟨.info, str "Found VM names: " ++ fmtStrings vmNames⟩
    if vmNames.length = 0 ∨ vmNames.head? = some [] then
      { vms := [], err := none, log := [start, found, ⟨.info, str "No VMs found."⟩] }
    else
      let scan := scanNames sh vmNames
      { vms := scan.1
        err := none
        log := [start, found] ++ scan.2 ++
          [⟨.info, str "Total VMs found: " ++ natDec scan.1.length⟩] }

/-! ## Registry construction -/

/-- A Go `map[string]string`: its entries, one per key. The order of the list stands for the
order in which the runtime happens to visit the entries, which Go leaves unspecified. -/
abbrev GoMap := List (GoString × GoString)

/-- Map read `m[k]`. -/
def mapGet (m : GoMap) (k : GoString) : Option GoString :=
  match m with
  | [] => none
  | (k0, v0) :: rest => if k0 = k then some v0 else mapGet rest k

/-- Map assignment `m[k] = v`: overwrite the entry of `k`, or add one. -/
def mapSet (m : GoMap) (k v : GoString) : GoMap :=
  match m with
  | [] => [(k, v)]
  | (k0, v0) :: rest => if k0 = k then (k, v) :: rest else (k0, v0) :: mapSet rest k v

/-- The keys of a map. -/
def mapKeys (m : GoMap) : List GoString := m.map Prod.fst

/-- Go struct `Config`. -/
structure Config where
  Port : Int
  VMs : GoMap
  Host : GoString
  Timeout : GoString
  deriving DecidableEq, Repr

/-- Upper-case an ASCII byte. -/
def upperByte (c : Nat) : Nat := if 0x61 ≤ c ∧ c ≤ 0x7A then c - 0x20 else c

/-- Go `strings.ToUpper`. A string of ASCII bytes is mapped byte by byte; any other string goes
through `strings.Map(unicode.ToUpper, s)`, which is the argument `unicodeUpper` (the Unicode
case tables are not part of the program). -/
def ToUpper (unicodeUpper : GoString → GoString) (s : GoString) : GoString :=
  if s.all (fun c => decide (c < 0x80)) then s.map upperByte else unicodeUpper s

/-- The `Config` value built by `initializeConfig` from the scanned records (the composite
literal and the `for _, vm := range vms` loop). -/
def newConfig (unicodeUpper : GoString → GoString) (vms : List VMInfo) : Config :=
  { Port := 7
    VMs := vms.foldl (fun m vm => mapSet m (ToUpper unicodeUpper vm.MAC) vm.Name) []
    Host := str "0.0.0.0"
    Timeout := str "60" }

/-- The entries of a map in the order `encoding/json` writes them: sorted by key, bytewise. -/
def sortedEntries (m : GoMap) : GoMap :=
  m.insertionSort (fun a b => a.1 ≤ b.1)

/-- Go `json.MarshalIndent(config, "", "  ")` for a `Config`. Fields are written in declaration
order under their JSON names, map entries sorted by key. `quote` is the JSON string encoder of
`encoding/json` (quoting and escaping), which is not part of the program. Encoding a `Config`
has no failure case. -/
def MarshalIndent (quote : GoString → GoString) (c : Config) : Except GoString GoString :=
  let entries := sortedEntries c.VMs
  let vms :=
    if entries = [] then str "\x7b\x7d"
    else
      str "\x7b\n" ++
      List.intercalate (str ",\n")
        (entries.map (fun e => str "    " ++ quote e.1 ++ str ": " ++ quote e.2)) ++
      str "\n  \x7d"
  .ok (str "\x7b\n  \"port\": " ++ intDec c.Port ++
    str ",\n  \"vms\": " ++ vms ++
    str ",\n  \"host\": " ++ quote c.Host ++
    str ",\n  \"timeout\": " ++ quote c.Timeout ++ str "\n\x7d")

/-! ## Registry storage -/

/-- The file at `configPath`: its content, or `none` when there is no such file. -/
abbrev Storage := Option GoString

/-- Error of a file-system call, as far as the program tells errors apart. -/
inductive FsError
  | notExist
  | other (msg : GoString)
  deriving DecidableEq, Repr

/-- A failing `os.WriteFile`: the error message and how far the call got. `written = none`
means it failed before the file was opened, so the file is as it was; `written = some n` means
the file had been created or truncated and the first `n` bytes of the data were stored when
the call failed. -/
structure WriteFailure where
  msg : GoString
  written : Option Nat
  deriving DecidableEq, Repr

/-- Failures the environment injects into the file-system calls of one run: for each call the
error it fails with, if any. A failing `os.Remove`, `os.Stat` or `os.ReadFile` leaves the
file as it was. -/
structure Faults where
  remove : Option GoString
  write : Option WriteFailure
  stat : Option GoString
  read : Option GoString
  deriving DecidableEq, Repr

/-- Go `os.Remove(configPath)`. -/
def osRemove (fault : Option GoString) (fs : Storage) : Storage × Option FsError :=
  match fault, fs with
  | some e, _ => (fs, some (.other e))
  | none, none => (none, some .notExist)
  | none, some _ => (none, none)

/-- Go `os.WriteFile(configPath, data, 0644)`. -/
def osWriteFile (fault : Option WriteFailure) (data : GoString) (fs : Storage) :
    Storage × Option GoString :=
  match fault with
  | some ⟨e, none⟩ => (fs, some e)
  | some ⟨e, some n⟩ => (some (data.take n), some e)
  | none => (some data, none)

/-- Go `os.Stat(configPath)`, the error only. -/
def osStat (fault : Option GoString) (fs : Storage) : Option FsError :=
  match fault, fs with
  | some e, _ => some (.other e)
  | none, none => some .notExist
  | none, some _ => none

/-- Go `os.ReadFile(configPath)`. -/
def osReadFile (fault : Option GoString) (fs : Storage) : Except FsError GoString :=
  match fault, fs with
  | some e, _ => .error (.other e)
  | none, none => .error .notExist
  | none, some data => .ok data

/-- Result of `initializeConfig`: the returned error, the file afterwards, the log records. -/
structure InitResult where
  err : Option GoString
  storage : Storage
  log : List LogEntry
  deriving DecidableEq, Repr

/-- Go `initializeConfig`. `marshal` is the serialiser applied to the new `Config`
(`MarshalIndent` in the program). -/
def initializeConfig (unicodeUpper : GoString → GoString)
    (marshal : Config → Except GoString GoString)
    (sh : Shell) (faults : Faults) (fs : Storage) : InitResult :=
  let log0 : List LogEntry := [⟨.info, str "Initializing config..."⟩]
  -- Attempt to remove existing config.json
  let removed := osRemove faults.remove fs
  let fs1 := removed.1
  let log1 : List LogEntry :=
    match removed.2 with
    | some (.other e) => log0 ++ [⟨.warning, str "Cannot remove config.json: " ++ e⟩]
    | _ => log0
  -- List VMs
  let listed := listVMs sh
  let log2 := log1 ++ listed.log
  match listed.err with
  | some e =>
    { err := some (str "failed to list VMs: " ++ e)
      storage := fs1
      log := log2 ++ [⟨.error, str "Failed to list VMs: " ++ e⟩] }
  | none =>
    -- Create new config
    let config := newConfig unicodeUpper listed.vms
    -- Write config.json
    match marshal config with
    | .error e =>
      { err := some (str "failed to serialize config: " ++ e)
        storage := fs1
        log := log2 ++ [⟨.error, str "Failed to serialize config: " ++ e⟩] }
    | .ok configData =>
      let written := osWriteFile faults.write configData fs1
      let fs2 := written.1
      match written.2 with
      | some e =>
        let log3 := log2 ++ [⟨.warning, str "Failed to write config.json: " ++ e⟩]
        if osStat faults.stat fs2 = none ∧ (osReadFile faults.read fs2).isOk then
          { err := none, storage := fs2, log := log3 ++ [⟨.info, str "Using existing config.json"⟩] }
        else
          { err := some (str "failed to write config.json: " ++ e), storage := fs2, log := log3 }
      | none =>
        { err := none
          storage := fs2
          log := log2 ++ [⟨.info, str "Created config.json with " ++
            natDec (mapKeys config.VMs).length ++ str " VMs"⟩] }

/-! ## Listener start-up -/

/-- Which case of the `select` statement at the head of `runListener` ran. -/
inductive GateOutcome
  | ready
  | timedOut
  deriving DecidableEq, Repr

/-- The observable steps of `runListener`, in program order. -/
inductive Event
  | log (sev : Severity) (msg : GoString)
  | waitReady (timeoutSeconds : Nat) (outcome : GateOutcome)
  | readFile (attempt : Nat)
  | sleep (milliseconds : Nat)
  | unmarshal (data : GoString)
  | resolveUDPAddr (addr : GoString)
  deriving DecidableEq, Repr

/-- How the retry loop of `runListener` ends. -/
inductive LoadExit
  | proceed (configFile : GoString)
  | returned (err : GoString)
  | outOfFuel
  deriving DecidableEq, Repr

/-- The loop `for attempt := 1; attempt <= 5; attempt++` of `runListener`, started at
`attempt`. `reads n` is the outcome of the `os.ReadFile` call of attempt `n`. -/
def loadLoop (configPath : GoString) (reads : Nat → Except GoString GoString) :
    Nat → Nat → List Event × LoadExit
  | 0, _ => ([], .outOfFuel)
  | fuel + 1, attempt =>
    if attempt ≤ 5 then
      let head : List Event :=
        [.log .info (str "Attempting to read config from " ++ configPath ++ str " (attempt " ++
          natDec attempt ++ str ")"),
         .readFile attempt]
      match reads attempt with
      | .ok data => (head, .proceed data)
      | .error e =>
        let warn : Event := .log .warning (str "Failed to read config.json (attempt " ++
          natDec attempt ++ str "): " ++ e)
        if attempt = 5 then
          (head ++ [warn, .log .error (str "Failed to read config.json after " ++
            natDec attempt ++ str " attempts: " ++ e)],
           .returned (str "failed to read config.json: " ++ e))
        else
          let next := loadLoop configPath reads fuel (attempt + 1)
          (head ++ [warn, .sleep 500] ++ next.1, next.2)
    else
      ([], .proceed [])

/-- Result of `runListener`: the returned error and the steps taken. -/
structure ListenerResult where
  err : Option GoString
  events : List Event
  deriving DecidableEq, Repr

/-- The part of `runListener` after the retry loop. `unmarshal` is `json.Unmarshal` into a
`Config`. The source at hand ends inside the call of `net.ResolveUDPAddr`; `rest` is what the
function does from that call on, given the address string and the configuration. -/
def afterLoad (unmarshal : GoString → Except GoString Config)
    (rest : GoString → Config → ListenerResult) (configFile : GoString) : ListenerResult :=
  match unmarshal configFile with
  | .error e =>
    { err := some (str "failed to parse config.json: " ++ e)
      events := [.unmarshal configFile, .log .error (str "Failed to parse config.json: " ++ e)] }
  | .ok config =>
    let addr := config.Host ++ str ":" ++ intDec config.Port
    let r := rest addr config
    { err := r.err
      events := [.unmarshal configFile, .log .info (str "Resolving UDP address " ++ addr),
        .resolveUDPAddr addr] ++ r.events }

/-- Go `runListener`, as far as the source goes. -/
def runListener (configPath : GoString) (gate : GateOutcome)
    (reads : Nat → Except GoString GoString)
    (unmarshal : GoString → Except GoString Config)
    (rest : GoString → Config → ListenerResult) : ListenerResult :=
  let waiting : Event := .log .info (str "Waiting for config initialization")
  match gate with
  | .timedOut =>
    { err := some (str "timeout waiting for config initialization")
      events := [waiting, .waitReady 10 .timedOut,
        .log .error (str "Timeout waiting for config initialization")] }
  | .ready =>
    let head : List Event :=
      [waiting, .waitReady 10 .ready, .log .info (str "Config initialization complete")]
    let loaded := loadLoop configPath reads 5 1
    match loaded.2 with
    | .proceed configFile =>
      let r := afterLoad unmarshal rest configFile
      { err := r.err, events := head ++ loaded.1 ++ r.events }
    | .returned e => { err := some e, events := head ++ loaded.1 }
    | .outOfFuel => { err := none, events := head ++ loaded.1 }

/-! ## Magic packets -/

/-- A parsed datagram (`MagicPacket` of the data model). -/
structure MagicPacket where
  targetMAC : List Nat
  valid : Bool
  deriving DecidableEq, Repr

/-- Modelled from the spec: the magic-packet parser of the receive loop, which lies in the part
of `runListener` that the source at hand does not contain. A payload is valid when its first
6 bytes are `0xFF`, the next 96 bytes are one 6-byte MAC repeated 16 times, and what follows is
nothing or a password of 4 or 6 bytes; the target MAC is that 6-byte group. Any other payload
is invalid (and carries no target). -/
def parseMagicPacket (payload : List Nat) : MagicPacket :=
  let mac := slice payload 6 12
  if (payload.length = 102 ∨ payload.length = 102 + 4 ∨ payload.length = 102 + 6) ∧
      slice payload 0 6 = List.replicate 6 0xFF ∧
      slice payload 6 102 = (List.replicate 16 mac).flatten then
    { targetMAC := mac, valid := true }
  else
    { targetMAC := [], valid := false }

/-- A well-formed magic packet for `mac` with the given trailer. -/
def magicPacket (mac trailer : List Nat) : List Nat :=
  List.replicate 6 0xFF ++ (List.replicate 16 mac).flatten ++ trailer

/-! ## Auxiliary definitions for the statements -/

/-- The record `listVMs` appends for a name, if its MAC query succeeds. -/
def recordOf (sh : Shell) (name : GoString) : Option VMInfo :=
  match getVMMacAddress sh name with
  | .ok mac => some ⟨name, mac⟩
  | .error _ => none

/-- A PowerShell host whose adapter query prints a lower-case MAC. -/
def lowerCaseShell : Shell := fun _ => ⟨str "aabbccddeeff\r\n", none⟩

/-- A PowerShell host whose enumeration output starts with a comma; every adapter query
succeeds. -/
def leadingCommaShell : Shell := fun cmd =>
  if cmd = listCommand then ⟨str ",vm2\r\n", none⟩ else ⟨str "00155D010203\r\n", none⟩

/-- A PowerShell host with three VMs: `vm1` and `vm3` report a MAC, the adapter query of `vm2`
fails. -/
def sampleShell : Shell := fun cmd =>
  if cmd = listCommand then ⟨str "vm1, vm2 ,vm3\r\n", none⟩
  else if cmd = adapterCommand (str "vm1") then ⟨str "00155d010203\r\n", none⟩
  else if cmd = adapterCommand (str "vm3") then ⟨str "00155D0102FF\r\n", none⟩
  else ⟨str "Get-VMNetworkAdapter : access denied", some (str "exit status 1")⟩

/-- Three scanned records; the first and the last carry the same MAC in different case. -/
def sampleRecords : List VMInfo :=
  [⟨str "web01", str "aa:bb:cc:dd:ee:ff"⟩, ⟨str "db01", str "00:15:5D:01:02:03"⟩,
   ⟨str "web02", str "AA:BB:CC:DD:EE:FF"⟩]

/-- A PowerShell host on which every command fails. -/
def failingShell : Shell := fun _ =>
  ⟨str "Get-VM : access denied", some (str "exit status 1")⟩

/-- The JSON encoding of a string in which no byte needs escaping: the string in quotes. -/
def quotePlain (s : GoString) : GoString := str "\"" ++ s ++ str "\""

/-- A registry document persisted by an earlier run. -/
def oldDocument : GoString := str "\x7b\"port\": 7, \"vms\": \x7b\x7d\x7d"

/-- No file-system call fails. -/
def noFaults : Faults := { remove := none, write := none, stat := none, read := none }

/-- Only the write fails. -/
def writeFault : Faults :=
  { remove := none, write := some ⟨str "access denied", none⟩, stat := none, read := none }

/-- The disk is full: the write fails after the file has been created, with nothing stored. -/
def diskFull : Faults :=
  { remove := none, write := some ⟨str "There is not enough space on the disk.", some 0⟩,
    stat := none, read := none }

/-- The file can be neither removed nor written, but it can be read. -/
def lockedFaults : Faults :=
  { remove := some (str "access denied"), write := some ⟨str "access denied", none⟩,
    stat := none, read := none }

/-- Only the removal fails. -/
def lockedRemoval : Faults :=
  { remove := some (str "access denied"), write := none, stat := none, read := none }

/-- Whether a step is a read of the registry file. -/
def isReadFile : Event → Bool
  | .readFile _ => true
  | _ => false

/-- Whether a step is a wait between two read attempts. -/
def isSleep : Event → Bool
  | .sleep _ => true
  | _ => false

/-- Whether a step is an entry of the event log. -/
def isLog : Event → Bool
  | .log _ _ => true
  | _ => false

/-- Reads that fail twice and then succeed. -/
def thirdReadSucceeds : Nat → Except GoString GoString := fun n =>
  if n < 3 then .error (str "sharing violation") else .ok oldDocument

/-- Reads that always fail. -/
def neverReadable : Nat → Except GoString GoString := fun _ => .error (str "access denied")

/-- An unmarshaller that accepts every document as the default configuration. -/
def defaultUnmarshal : GoString → Except GoString Config := fun _ =>
  .ok { Port := 7, VMs := [], Host := str "0.0.0.0", Timeout := str "60" }

/-- A remainder of `runListener` that fails to bind. -/
def bindFails : GoString → Config → ListenerResult := fun addr _ =>
  { err := some (str "listen udp " ++ addr ++ str ": bind: permission denied"), events := [] }

/-! ## Inventory scan: theorems -/

theorem scanNames_fst (sh : Shell) (names : List GoString) :
    (scanNames sh names).1 =
      ((names.map TrimSpace).filter (fun n => decide (n ≠ []))).filterMap (recordOf sh) := by
  induction names with
  | nil => rfl
  | cons raw rest ih =>
    simp only [scanNames, List.map_cons]
    by_cases h : TrimSpace raw = []
    · simp [h, ih]
    · simp only [h, if_false]
      rw [List.filter_cons_of_pos (by simpa using h)]
      cases hq : getVMMacAddress sh (TrimSpace raw) with
      | error e => simp [recordOf, hq, ih]
      | ok mac => simp [recordOf, hq, ih]

/-- C5: when the adapter query command succeeds, `getVMMacAddress` fails if and only if the
trimmed output is not 12 bytes long, the failure is then the malformed-MAC error, and every
output of trimmed length 12 gives a MAC and no error. -/
theorem getVMMacAddress_error_iff (sh : Shell) (vmName : GoString)
    (hcmd : (sh (adapterCommand vmName)).err = none) :
    ((∃ e, getVMMacAddress sh vmName = .error e) ↔
        (TrimSpace (sh (adapterCommand vmName)).output).length ≠ 12) ∧
      (getVMMacAddress sh vmName =
          .error (str "invalid MAC address format: " ++
            TrimSpace (sh (adapterCommand vmName)).output) ↔
        (TrimSpace (sh (adapterCommand vmName)).output).length ≠ 12) ∧
      ((TrimSpace (sh (adapterCommand vmName)).output).length = 12 →
        ∃ mac, getVMMacAddress sh vmName = .ok mac) := by
  by_cases h : (TrimSpace (sh (adapterCommand vmName)).output).length = 12
  · simp [getVMMacAddress, hcmd, h]
  · simp [getVMMacAddress, hcmd, h]

theorem getVMMacAddress_error_iff_witness :
    ((∃ e, getVMMacAddress lowerCaseShell (str "vm1") = .error e) ↔
        (TrimSpace (lowerCaseShell (adapterCommand (str "vm1"))).output).length ≠ 12) ∧
      (getVMMacAddress lowerCaseShell (str "vm1") =
          .error (str "invalid MAC address format: " ++
            TrimSpace (lowerCaseShell (adapterCommand (str "vm1"))).output) ↔
        (TrimSpace (lowerCaseShell (adapterCommand (str "vm1"))).output).length ≠ 12) ∧
      ((TrimSpace (lowerCaseShell (adapterCommand (str "vm1"))).output).length = 12 →
        ∃ mac, getVMMacAddress lowerCaseShell (str "vm1") = .ok mac) :=
  getVMMacAddress_error_iff lowerCaseShell (str "vm1") rfl

/-- C4 (as stated, refuted): for the adapter output `aabbccddeeff` the command succeeds, the
trimmed output is 12 hex characters, and the MAC returned is `aa:bb:cc:dd:ee:ff`, in lower
case, not `AA:BB:CC:DD:EE:FF`. -/
theorem getVMMacAddress_keeps_lower_case :
    (lowerCaseShell (adapterCommand (str "vm1"))).err = none ∧
      TrimSpace (lowerCaseShell (adapterCommand (str "vm1"))).output = str "aabbccddeeff" ∧
      getVMMacAddress lowerCaseShell (str "vm1") = .ok (str "aa:bb:cc:dd:ee:ff") ∧
      getVMMacAddress lowerCaseShell (str "vm1") ≠ .ok (str "AA:BB:CC:DD:EE:FF") := by
  decide

/-- C4 (amended): when the adapter query succeeds and the trimmed output consists of the 12
bytes `a0 .. a11`, `getVMMacAddress` returns the 17 bytes `a0 a1 : a2 a3 : .. : a10 a11`, each
byte as it is in the input; upper-casing the result gives the upper-cased groups, so the
result is in upper case exactly when the input is. -/
theorem getVMMacAddress_colon_form (sh : Shell) (vmName : GoString)
    (a0 a1 a2 a3 a4 a5 a6 a7 a8 a9 a10 a11 : Nat)
    (hcmd : (sh (adapterCommand vmName)).err = none)
    (hout : TrimSpace (sh (adapterCommand vmName)).output =
      [a0, a1, a2, a3, a4, a5, a6, a7, a8, a9, a10, a11]) :
    getVMMacAddress sh vmName =
        .ok [a0, a1, 0x3A, a2, a3, 0x3A, a4, a5, 0x3A, a6, a7, 0x3A, a8, a9, 0x3A, a10, a11] ∧
      [a0, a1, 0x3A, a2, a3, 0x3A, a4, a5, 0x3A, a6, a7, 0x3A, a8, a9, 0x3A, a10, a11].length
        = 17 ∧
      [a0, a1, 0x3A, a2, a3, 0x3A, a4, a5, 0x3A, a6, a7, 0x3A, a8, a9, 0x3A, a10,
          a11].map upperByte =
        [upperByte a0, upperByte a1, 0x3A, upperByte a2, upperByte a3, 0x3A, upperByte a4,
          upperByte a5, 0x3A, upperByte a6, upperByte a7, 0x3A, upperByte a8, upperByte a9,
          0x3A, upperByte a10, upperByte a11] := by
  refine ⟨?_, rfl, ?_⟩
  · have hcolon : str ":" = [0x3A] := by decide
    simp [getVMMacAddress, hcmd, hout, slice, hcolon]
  · have h : upperByte 0x3A = 0x3A := by decide
    simp [h]

theorem getVMMacAddress_colon_form_witness :
    getVMMacAddress lowerCaseShell (str "vm1") =
        .ok [97, 97, 0x3A, 98, 98, 0x3A, 99, 99, 0x3A, 100, 100, 0x3A, 101, 101, 0x3A, 102, 102] ∧
      [97, 97, 0x3A, 98, 98, 0x3A, 99, 99, 0x3A, 100, 100, 0x3A, 101, 101, 0x3A, 102, 102].length
        = 17 ∧
      [97, 97, 0x3A, 98, 98, 0x3A, 99, 99, 0x3A, 100, 100, 0x3A, 101, 101, 0x3A, 102,
          102].map upperByte =
        [upperByte 97, upperByte 97, 0x3A, upperByte 98, upperByte 98, 0x3A, upperByte 99,
          upperByte 99, 0x3A, upperByte 100, upperByte 100, 0x3A, upperByte 101, upperByte 101,
          0x3A, upperByte 102, upperByte 102] :=
  getVMMacAddress_colon_form lowerCaseShell (str "vm1") 97 97 98 98 99 99 100 100 101 101 102 102
    rfl (by decide)

/-- C6 (as stated, refuted): the enumeration succeeds with output `,vm2`, whose names are an
empty name and `vm2`; the MAC query of `vm2` succeeds, yet `listVMs` returns no record at
all (and no error). -/
theorem listVMs_leading_comma_drops_all :
    (leadingCommaShell listCommand).err = none ∧
      Split 0x2C (TrimSpace (leadingCommaShell listCommand).output) = [[], str "vm2"] ∧
      getVMMacAddress leadingCommaShell (str "vm2") = .ok (str "00:15:5D:01:02:03") ∧
      (listVMs leadingCommaShell).err = none ∧
      (listVMs leadingCommaShell).vms = [] := by
  decide

/-- C6 (amended): when the enumeration command succeeds, `listVMs` returns no error. If the
first comma-separated name of the trimmed output is empty it returns no records; otherwise
its result is exactly the records (name, MAC) of the trimmed, non-empty names whose MAC query
succeeds, in enumeration order, so a failing VM removes only itself. -/
theorem listVMs_skips_failed_only (sh : Shell) (hcmd : (sh listCommand).err = none) :
    (listVMs sh).err = none ∧
      ((Split 0x2C (TrimSpace (sh listCommand).output)).head? = some [] →
        (listVMs sh).vms = []) ∧
      ((Split 0x2C (TrimSpace (sh listCommand).output)).head? ≠ some [] →
        (listVMs sh).vms =
          (((Split 0x2C (TrimSpace (sh listCommand).output)).map TrimSpace).filter
            (fun n => decide (n ≠ []))).filterMap (recordOf sh)) := by
  have hlen : (Split 0x2C (TrimSpace (sh listCommand).output)).length ≠ 0 := by
    cases h : TrimSpace (sh listCommand).output with
    | nil => simp [Split]
    | cons c s =>
      simp only [Split]
      split
      · simp
      · split <;> simp
  by_cases h : (Split 0x2C (TrimSpace (sh listCommand).output)).head? = some []
  · simp [listVMs, hcmd, h]
  · simp [listVMs, hcmd, h, hlen, scanNames_fst]

theorem listVMs_skips_failed_only_witness :
    (listVMs sampleShell).err = none ∧
      ((Split 0x2C (TrimSpace (sampleShell listCommand).output)).head? = some [] →
        (listVMs sampleShell).vms = []) ∧
      ((Split 0x2C (TrimSpace (sampleShell listCommand).output)).head? ≠ some [] →
        (listVMs sampleShell).vms =
          (((Split 0x2C (TrimSpace (sampleShell listCommand).output)).map TrimSpace).filter
            (fun n => decide (n ≠ []))).filterMap (recordOf sampleShell)) :=
  listVMs_skips_failed_only sampleShell (by decide)

/-! ## Registry construction: theorems -/

theorem mapGet_mapSet (m : GoMap) (k v K : GoString) :
    mapGet (mapSet m k v) K = if k = K then some v else mapGet m K := by
  induction m with
  | nil => simp [mapSet, mapGet]
  | cons e rest ih =>
    obtain ⟨k0, v0⟩ := e
    by_cases h0 : k0 = k
    · subst h0
      by_cases h1 : k0 = K <;> simp [mapSet, mapGet, h1]
    · by_cases h1 : k0 = K
      · subst h1
        have : ¬ k = k0 := fun h => h0 h.symm
        simp [mapSet, mapGet, h0, this]
      · simp [mapSet, mapGet, h0, h1, ih]

theorem mem_mapKeys_iff (m : GoMap) (K : GoString) :
    K ∈ mapKeys m ↔ mapGet m K ≠ none := by
  induction m with
  | nil => simp [mapKeys, mapGet]
  | cons e rest ih =>
    obtain ⟨k0, v0⟩ := e
    by_cases h : k0 = K
    · simp [mapKeys, mapGet, h]
    · have h2 : ¬ K = k0 := fun h3 => h h3.symm
      simp only [mapKeys] at ih
      simp [mapKeys, mapGet, h, h2, ih]

theorem mapKeys_mapSet (m : GoMap) (k v K : GoString) :
    K ∈ mapKeys (mapSet m k v) ↔ K = k ∨ K ∈ mapKeys m := by
  rw [mem_mapKeys_iff, mem_mapKeys_iff, mapGet_mapSet]
  by_cases h : k = K
  · simp [h]
  · have h2 : ¬ K = k := fun h3 => h h3.symm
    simp [h, h2]

theorem nodup_mapKeys_mapSet (m : GoMap) (k v : GoString) (h : (mapKeys m).Nodup) :
    (mapKeys (mapSet m k v)).Nodup := by
  induction m with
  | nil => simp [mapSet, mapKeys]
  | cons e rest ih =>
    obtain ⟨k0, v0⟩ := e
    have hk : k0 ∉ mapKeys rest ∧ (mapKeys rest).Nodup := by
      simpa [mapKeys] using h
    by_cases h0 : k0 = k
    · subst h0
      simpa [mapSet, mapKeys] using h
    · have hnot : k0 ∉ mapKeys (mapSet rest k v) := by
        rw [mapKeys_mapSet]
        simp [h0, hk.1]
      have := ih hk.2
      simp only [mapKeys] at this hnot
      simp [mapSet, h0, mapKeys, this, hnot]

/-- The map after the insertion loop, started from `m`. -/
theorem mapGet_foldl (f : VMInfo → GoString) (records : List VMInfo) (m : GoMap) (K : GoString) :
    mapGet (records.foldl (fun m vm => mapSet m (f vm) vm.Name) m) K =
      match records.reverse.find? (fun r => decide (f r = K)) with
      | some r => some r.Name
      | none => mapGet m K := by
  induction records generalizing m with
  | nil => simp
  | cons r rs ih =>
    rw [List.foldl_cons, ih, List.reverse_cons, List.find?_append]
    cases hfind : rs.reverse.find? (fun r => decide (f r = K)) with
    | some r1 => simp
    | none =>
      by_cases h : f r = K
      · simp [h, mapGet_mapSet]
      · simp [h, mapGet_mapSet]

theorem nodup_mapKeys_foldl (f : VMInfo → GoString) (records : List VMInfo) (m : GoMap)
    (h : (mapKeys m).Nodup) :
    (mapKeys (records.foldl (fun m vm => mapSet m (f vm) vm.Name) m)).Nodup := by
  induction records generalizing m with
  | nil => simpa using h
  | cons r rs ih =>
    rw [List.foldl_cons]
    exact ih _ (nodup_mapKeys_mapSet m _ _ h)

theorem upperByte_upperByte (c : Nat) : upperByte (upperByte c) = upperByte c := by
  unfold upperByte
  split_ifs <;> omega

theorem upperByte_lt (c : Nat) (h : c < 0x80) : upperByte c < 0x80 := by
  unfold upperByte
  split_ifs <;> omega

/-- `strings.ToUpper` is idempotent when the Unicode mapping yields upper-cased strings. -/
theorem ToUpper_ToUpper (u : GoString → GoString)
    (hu : ∀ s, ¬ s.all (fun c => decide (c < 0x80)) → ToUpper u (u s) = u s) (s : GoString) :
    ToUpper u (ToUpper u s) = ToUpper u s := by
  by_cases h : s.all (fun c => decide (c < 0x80))
  · have h2 : (s.map upperByte).all (fun c => decide (c < 0x80)) := by
      simp only [List.all_eq_true, decide_eq_true_eq, List.mem_map] at h ⊢
      rintro c ⟨b, hb, rfl⟩
      exact upperByte_lt b (h b hb)
    have h3 : ToUpper u s = s.map upperByte := by simp [ToUpper, h]
    rw [h3]
    simp [ToUpper, h2, upperByte_upperByte]
  · have h3 : ToUpper u s = u s := by simp [ToUpper, h]
    rw [h3]
    exact hu s h

/-- C1: the `Config` that `initializeConfig` builds from the scanned records and serialises has
`Port = 7`, `Host = "0.0.0.0"`, `Timeout = "60"`; the keys of `VMs` are distinct and are
exactly the upper-cased MACs of the records; the value under a key is the name of the last
record in scan order with that upper-cased MAC; every key is its own upper-casing; no
records give the empty map; and after a run whose enumeration and write succeed the file
holds the serialisation of this `Config`. -/
theorem newConfig_contents (u : GoString → GoString)
    (hu : ∀ s, ¬ s.all (fun c => decide (c < 0x80)) → ToUpper u (u s) = u s)
    (records : List VMInfo) :
    (newConfig u records).Port = 7 ∧
      (newConfig u records).Host = str "0.0.0.0" ∧
      (newConfig u records).Timeout = str "60" ∧
      (mapKeys (newConfig u records).VMs).Nodup ∧
      (∀ K, K ∈ mapKeys (newConfig u records).VMs ↔ ∃ r ∈ records, ToUpper u r.MAC = K) ∧
      (∀ K, mapGet (newConfig u records).VMs K =
        (records.reverse.find? (fun r => decide (ToUpper u r.MAC = K))).map VMInfo.Name) ∧
      (∀ K ∈ mapKeys (newConfig u records).VMs, ToUpper u K = K) ∧
      (newConfig u []).VMs = [] ∧
      (∀ (marshal : Config → Except GoString GoString) (sh : Shell) (faults : Faults)
          (fs : Storage) (data : GoString),
        (listVMs sh).vms = records → (listVMs sh).err = none →
        marshal (newConfig u records) = .ok data → faults.write = none →
        (initializeConfig u marshal sh faults fs).err = none ∧
          (initializeConfig u marshal sh faults fs).storage = some data) := by
  have hget : ∀ K, mapGet (newConfig u records).VMs K =
      (records.reverse.find? (fun r => decide (ToUpper u r.MAC = K))).map VMInfo.Name := by
    intro K
    simp only [newConfig]
    rw [mapGet_foldl (fun vm => ToUpper u vm.MAC)]
    cases records.reverse.find? (fun r => decide (ToUpper u r.MAC = K)) <;> simp [mapGet]
  have hkeys : ∀ K, K ∈ mapKeys (newConfig u records).VMs ↔
      ∃ r ∈ records, ToUpper u r.MAC = K := by
    intro K
    rw [mem_mapKeys_iff, hget]
    cases hfind : records.reverse.find? (fun r => decide (ToUpper u r.MAC = K)) with
    | none =>
      simp only [List.find?_eq_none, List.mem_reverse, decide_eq_true_eq] at hfind
      simp only [Option.map_none', ne_eq, not_true_eq_false, false_iff, not_exists, not_and]
      exact hfind
    | some r =>
      have h1 := List.find?_some hfind
      have h2 := List.mem_of_find?_eq_some hfind
      simp only [decide_eq_true_eq] at h1
      simp only [Option.map_some', ne_eq, reduceCtorEq, not_false_eq_true, true_iff]
      exact ⟨r, by simpa using h2, h1⟩
  refine ⟨rfl, rfl, rfl, ?_, hkeys, hget, ?_, rfl, ?_⟩
  · exact nodup_mapKeys_foldl (fun vm => ToUpper u vm.MAC) records [] (by simp [mapKeys])
  · intro K hK
    obtain ⟨r, _, hr⟩ := (hkeys K).1 hK
    rw [← hr]
    exact ToUpper_ToUpper u hu r.MAC
  · intro marshal sh faults fs data hvms herr hm hw
    simp [initializeConfig, herr, hvms, hm, hw, osWriteFile]

theorem newConfig_contents_witness :
    (newConfig id sampleRecords).Port = 7 ∧
      (newConfig id sampleRecords).Host = str "0.0.0.0" ∧
      (newConfig id sampleRecords).Timeout = str "60" ∧
      (mapKeys (newConfig id sampleRecords).VMs).Nodup ∧
      (∀ K, K ∈ mapKeys (newConfig id sampleRecords).VMs ↔
        ∃ r ∈ sampleRecords, ToUpper id r.MAC = K) ∧
      (∀ K, mapGet (newConfig id sampleRecords).VMs K =
        (sampleRecords.reverse.find?
          (fun r => decide (ToUpper id r.MAC = K))).map VMInfo.Name) ∧
      (∀ K ∈ mapKeys (newConfig id sampleRecords).VMs, ToUpper id K = K) ∧
      (newConfig id []).VMs = [] ∧
      (∀ (marshal : Config → Except GoString GoString) (sh : Shell) (faults : Faults)
          (fs : Storage) (data : GoString),
        (listVMs sh).vms = sampleRecords → (listVMs sh).err = none →
        marshal (newConfig id sampleRecords) = .ok data → faults.write = none →
        (initializeConfig id marshal sh faults fs).err = none ∧
          (initializeConfig id marshal sh faults fs).storage = some data) :=
  newConfig_contents id (fun s hs => by simp [ToUpper, hs]) sampleRecords

/-- C2 (as stated, refuted): the file holds a document, the removal at the start of
`initializeConfig` succeeds and the VM enumeration fails; the call returns an error and the
file is gone. -/
theorem initializeConfig_failed_rebuild_deletes :
    (initializeConfig id (MarshalIndent quotePlain) failingShell noFaults
        (some oldDocument)).err ≠ none ∧
      (initializeConfig id (MarshalIndent quotePlain) failingShell noFaults
        (some oldDocument)).storage = none ∧
      (initializeConfig id (MarshalIndent quotePlain) failingShell noFaults
        (some oldDocument)).storage ≠ some oldDocument := by
  decide

/-- C2 (amended): for a file that holds a document and a run of `initializeConfig` that
returns an error (enumeration, serialisation or write failure) in which no write got as far
as opening the file, the file afterwards holds the same document if the removal at the
start of the run failed, and is gone if that removal succeeded. -/
theorem initializeConfig_error_storage (u : GoString → GoString)
    (marshal : Config → Except GoString GoString) (sh : Shell) (faults : Faults)
    (doc : GoString)
    (herr : (initializeConfig u marshal sh faults (some doc)).err ≠ none)
    (hwrite : ∀ w, faults.write = some w → w.written = none) :
    (faults.remove ≠ none →
        (initializeConfig u marshal sh faults (some doc)).storage = some doc) ∧
      (faults.remove = none →
        (initializeConfig u marshal sh faults (some doc)).storage = none) := by
  obtain ⟨frm, fwr, fst, frd⟩ := faults
  revert herr
  simp only [initializeConfig]
  cases frm <;> cases hl : (listVMs sh).err <;>
    cases hm : marshal (newConfig u (listVMs sh).vms) <;> cases fwr with
    | none => simp [osRemove, osWriteFile]
    | some w =>
      obtain ⟨e, wr⟩ := w
      obtain rfl : wr = none := hwrite ⟨e, wr⟩ rfl
      simp [osRemove, osWriteFile] <;> split <;> simp

theorem initializeConfig_error_storage_witness :
    (lockedFaults.remove ≠ none →
        (initializeConfig id (MarshalIndent quotePlain) failingShell lockedFaults
          (some oldDocument)).storage = some oldDocument) ∧
      (lockedFaults.remove = none →
        (initializeConfig id (MarshalIndent quotePlain) failingShell lockedFaults
          (some oldDocument)).storage = none) :=
  initializeConfig_error_storage id (MarshalIndent quotePlain) failingShell lockedFaults
    oldDocument (by decide) (by decide)

/-- C3 (as stated, refuted): a readable document exists before the call and only the write
fails. When the write fails before the file is opened, `initializeConfig` returns an error,
not success, and the file is gone; when it fails after the file has been created (disk
full), `initializeConfig` returns success but the file no longer holds the old document. -/
theorem initializeConfig_write_failure_no_fallback :
    osStat none (some oldDocument) = none ∧
      osReadFile none (some oldDocument) = .ok oldDocument ∧
      (listVMs sampleShell).err = none ∧
      (initializeConfig id (MarshalIndent quotePlain) sampleShell writeFault
        (some oldDocument)).err = some (str "failed to write config.json: access denied") ∧
      (initializeConfig id (MarshalIndent quotePlain) sampleShell writeFault
        (some oldDocument)).storage = none ∧
      (initializeConfig id (MarshalIndent quotePlain) sampleShell diskFull
        (some oldDocument)).err = none ∧
      (initializeConfig id (MarshalIndent quotePlain) sampleShell diskFull
        (some oldDocument)).storage = some [] := by
  decide

/-- C3 (amended): a document exists before the call, the removal at the start of the run
fails (so the document is still there), the enumeration and the serialisation succeed, the
write fails before opening the file and the file can be inspected and read; then `initializeConfig` returns `nil`,
logs the write failure as a warning followed by "Using existing config.json", and the file
content is unchanged. -/
theorem initializeConfig_write_fallback (u : GoString → GoString)
    (marshal : Config → Except GoString GoString) (sh : Shell) (faults : Faults)
    (doc data e : GoString)
    (hlist : (listVMs sh).err = none)
    (hm : marshal (newConfig u (listVMs sh).vms) = .ok data)
    (hrm : faults.remove ≠ none) (hw : faults.write = some ⟨e, none⟩)
    (hstat : faults.stat = none) (hread : faults.read = none) :
    (initializeConfig u marshal sh faults (some doc)).err = none ∧
      (initializeConfig u marshal sh faults (some doc)).storage = some doc ∧
      ∃ before, (initializeConfig u marshal sh faults (some doc)).log =
        before ++ [⟨.warning, str "Failed to write config.json: " ++ e⟩,
          ⟨.info, str "Using existing config.json"⟩] := by
  obtain ⟨frm, fwr, fst, frd⟩ := faults
  simp only at hrm hw hstat hread
  subst hw hstat hread
  cases frm with
  | none => exact absurd rfl hrm
  | some r =>
    refine ⟨?_, ?_, [⟨.info, str "Initializing config..."⟩,
      ⟨.warning, str "Cannot remove config.json: " ++ r⟩] ++ (listVMs sh).log, ?_⟩ <;>
    simp [initializeConfig, hlist, hm, osRemove, osWriteFile, osStat, osReadFile, Except.isOk,
      Except.toBool]

theorem initializeConfig_write_fallback_witness :
    (initializeConfig id (MarshalIndent quotePlain) sampleShell lockedFaults
        (some oldDocument)).err = none ∧
      (initializeConfig id (MarshalIndent quotePlain) sampleShell lockedFaults
        (some oldDocument)).storage = some oldDocument ∧
      ∃ before, (initializeConfig id (MarshalIndent quotePlain) sampleShell lockedFaults
          (some oldDocument)).log =
        before ++ [⟨.warning, str "Failed to write config.json: " ++ str "access denied"⟩,
          ⟨.info, str "Using existing config.json"⟩] :=
  initializeConfig_write_fallback id (MarshalIndent quotePlain) sampleShell lockedFaults
    oldDocument _ (str "access denied") (by decide) rfl (by decide) rfl rfl rfl

/-- Sorting by key gives the same list for every order of the same entries. -/
theorem sortedEntries_perm (m m2 : GoMap) (hperm : m.Perm m2) (hnd : (mapKeys m).Nodup) :
    sortedEntries m = sortedEntries m2 := by
  haveI : IsTotal (GoString × GoString) (fun a b => a.1 ≤ b.1) := ⟨fun a b => le_total a.1 b.1⟩
  haveI : IsTrans (GoString × GoString) (fun a b => a.1 ≤ b.1) :=
    ⟨fun a b c hab hbc => le_trans hab hbc⟩
  haveI : IsAntisymm (GoString × GoString) (fun a b => a.1 < b.1) :=
    ⟨fun a b hab hba => absurd hab (lt_asymm hba)⟩
  have strict : ∀ l : GoMap, l.Perm m →
      (l.insertionSort (fun a b => a.1 ≤ b.1)).Sorted (fun a b => a.1 < b.1) := by
    intro l hl
    have hs := List.sorted_insertionSort (fun a b : GoString × GoString => a.1 ≤ b.1) l
    have hp := (List.perm_insertionSort (fun a b : GoString × GoString => a.1 ≤ b.1) l).trans hl
    have hn : ((l.insertionSort (fun a b => a.1 ≤ b.1)).map Prod.fst).Nodup :=
      ((hp.map Prod.fst).nodup_iff).2 hnd
    have hn2 : (l.insertionSort (fun a b => a.1 ≤ b.1)).Pairwise (fun a b => a.1 ≠ b.1) :=
      List.pairwise_map.1 hn
    exact (List.Pairwise.and hs hn2).imp (fun h => lt_of_le_of_ne h.1 h.2)
  have p1 := List.perm_insertionSort (fun a b : GoString × GoString => a.1 ≤ b.1) m
  have p2 := List.perm_insertionSort (fun a b : GoString × GoString => a.1 ≤ b.1) m2
  exact List.eq_of_perm_of_sorted (p1.trans (hperm.trans p2.symm)) (strict m (List.Perm.refl m))
    (strict m2 hperm.symm)

/-- C9: with a stable inventory (two enumerations that succeed with the same records) and
writes that succeed, `initializeConfig` persists the same bytes whatever the file held
before, so a second run over the result of the first persists a byte-identical document;
and the bytes do not depend on the order in which the map holds its entries. -/
theorem initializeConfig_idempotent (u quote : GoString → GoString) (sh1 sh2 : Shell)
    (f1 f2 : Faults)
    (h1 : (listVMs sh1).err = none) (h2 : (listVMs sh2).err = none)
    (hsame : (listVMs sh1).vms = (listVMs sh2).vms)
    (hw1 : f1.write = none) (hw2 : f2.write = none) :
    (∃ doc, MarshalIndent quote (newConfig u (listVMs sh1).vms) = .ok doc ∧
      ∀ fs fs2 : Storage,
        (initializeConfig u (MarshalIndent quote) sh1 f1 fs).err = none ∧
        (initializeConfig u (MarshalIndent quote) sh1 f1 fs).storage = some doc ∧
        (initializeConfig u (MarshalIndent quote) sh2 f2 fs2).err = none ∧
        (initializeConfig u (MarshalIndent quote) sh2 f2 fs2).storage = some doc) ∧
      (∀ fs : Storage,
        (initializeConfig u (MarshalIndent quote) sh2 f2
          (initializeConfig u (MarshalIndent quote) sh1 f1 fs).storage).storage =
        (initializeConfig u (MarshalIndent quote) sh1 f1 fs).storage) ∧
      (∀ m : GoMap, m.Perm (newConfig u (listVMs sh1).vms).VMs →
        MarshalIndent quote { newConfig u (listVMs sh1).vms with VMs := m } =
          MarshalIndent quote (newConfig u (listVMs sh1).vms)) := by
  have hrun : ∀ (sh : Shell) (f : Faults) (fs : Storage) (doc : GoString),
      (listVMs sh).err = none → f.write = none →
      MarshalIndent quote (newConfig u (listVMs sh).vms) = .ok doc →
      (initializeConfig u (MarshalIndent quote) sh f fs).err = none ∧
        (initializeConfig u (MarshalIndent quote) sh f fs).storage = some doc := by
    intro sh f fs doc hl hw hm
    simp [initializeConfig, hl, hm, hw, osWriteFile]
  obtain ⟨doc, hdoc⟩ : ∃ doc, MarshalIndent quote (newConfig u (listVMs sh1).vms) = .ok doc :=
    ⟨_, rfl⟩
  have hdoc2 : MarshalIndent quote (newConfig u (listVMs sh2).vms) = .ok doc := by
    rw [← hsame]; exact hdoc
  refine ⟨⟨doc, hdoc, fun fs fs2 => ?_⟩, fun fs => ?_, fun m hm => ?_⟩
  · exact ⟨(hrun sh1 f1 fs doc h1 hw1 hdoc).1, (hrun sh1 f1 fs doc h1 hw1 hdoc).2,
      (hrun sh2 f2 fs2 doc h2 hw2 hdoc2).1, (hrun sh2 f2 fs2 doc h2 hw2 hdoc2).2⟩
  · rw [(hrun sh2 f2 _ doc h2 hw2 hdoc2).2, (hrun sh1 f1 fs doc h1 hw1 hdoc).2]
  · have hnd : (mapKeys m).Nodup := by
      have := nodup_mapKeys_foldl (fun vm => ToUpper u vm.MAC) (listVMs sh1).vms []
        (by simp [mapKeys])
      exact ((hm.map Prod.fst).nodup_iff).2 this
    have hs := sortedEntries_perm m (newConfig u (listVMs sh1).vms).VMs hm hnd
    simp only [MarshalIndent, hs]

theorem initializeConfig_idempotent_witness :
    (∃ doc, MarshalIndent quotePlain (newConfig id (listVMs sampleShell).vms) = .ok doc ∧
      ∀ fs fs2 : Storage,
        (initializeConfig id (MarshalIndent quotePlain) sampleShell noFaults fs).err = none ∧
        (initializeConfig id (MarshalIndent quotePlain) sampleShell noFaults fs).storage =
          some doc ∧
        (initializeConfig id (MarshalIndent quotePlain) sampleShell lockedRemoval fs2).err =
          none ∧
        (initializeConfig id (MarshalIndent quotePlain) sampleShell lockedRemoval fs2).storage =
          some doc) ∧
      (∀ fs : Storage,
        (initializeConfig id (MarshalIndent quotePlain) sampleShell lockedRemoval
          (initializeConfig id (MarshalIndent quotePlain) sampleShell noFaults fs).storage).storage
          = (initializeConfig id (MarshalIndent quotePlain) sampleShell noFaults fs).storage) ∧
      (∀ m : GoMap, m.Perm (newConfig id (listVMs sampleShell).vms).VMs →
        MarshalIndent quotePlain { newConfig id (listVMs sampleShell).vms with VMs := m } =
          MarshalIndent quotePlain (newConfig id (listVMs sampleShell).vms)) :=
  initializeConfig_idempotent id quotePlain sampleShell sampleShell noFaults lockedRemoval
    (by decide) (by decide) rfl rfl rfl

/-! ## Listener start-up: theorems -/

/-- C7: if the first successful read is the `k`-th with `k ≤ 5`, the load loop makes exactly the
read attempts `1 .. k`, waits 500 ms exactly `k - 1` times, and `runListener` goes on with the
content of that read; if the first five reads all fail it makes exactly the attempts
`1 .. 5` with 4 waits and `runListener` returns an error built from the fifth failure. With
reads failing, failing, succeeding the loop ends after exactly 3 attempts. -/
theorem loadLoop_bounded_retry (configPath : GoString)
    (reads : Nat → Except GoString GoString) :
    (∀ k data, 1 ≤ k → k ≤ 5 → (∀ j, 1 ≤ j → j < k → ∃ e, reads j = .error e) →
        reads k = .ok data →
        (loadLoop configPath reads 5 1).2 = .proceed data ∧
        (loadLoop configPath reads 5 1).1.filter isReadFile =
          (List.range k).map (fun i => Event.readFile (i + 1)) ∧
        (loadLoop configPath reads 5 1).1.filter isSleep =
          List.replicate (k - 1) (Event.sleep 500) ∧
        ∀ unmarshal rest,
          (runListener configPath .ready reads unmarshal rest).err =
            (afterLoad unmarshal rest data).err ∧
          ∃ before, (runListener configPath .ready reads unmarshal rest).events =
            before ++ (afterLoad unmarshal rest data).events ∧
            before.filter isReadFile = (List.range k).map (fun i => Event.readFile (i + 1))) ∧
      (∀ e5, (∀ j, 1 ≤ j → j < 5 → ∃ e, reads j = .error e) → reads 5 = .error e5 →
        (loadLoop configPath reads 5 1).2 = .returned (str "failed to read config.json: " ++ e5) ∧
        (loadLoop configPath reads 5 1).1.filter isReadFile =
          (List.range 5).map (fun i => Event.readFile (i + 1)) ∧
        (loadLoop configPath reads 5 1).1.filter isSleep =
          List.replicate 4 (Event.sleep 500) ∧
        ∀ unmarshal rest,
          (runListener configPath .ready reads unmarshal rest).err =
            some (str "failed to read config.json: " ++ e5) ∧
          (runListener configPath .ready reads unmarshal rest).events.filter isReadFile =
            (List.range 5).map (fun i => Event.readFile (i + 1))) ∧
      (∀ e1 e2 data, reads 1 = .error e1 → reads 2 = .error e2 → reads 3 = .ok data →
        (loadLoop configPath reads 5 1).2 = .proceed data ∧
        (loadLoop configPath reads 5 1).1.filter isReadFile =
          [Event.readFile 1, Event.readFile 2, Event.readFile 3]) := by
  refine ⟨?_, ?_, ?_⟩
  · intro k data hk1 hk5 hfail hok
    have key : (loadLoop configPath reads 5 1).2 = .proceed data ∧
        (loadLoop configPath reads 5 1).1.filter isReadFile =
          (List.range k).map (fun i => Event.readFile (i + 1)) ∧
        (loadLoop configPath reads 5 1).1.filter isSleep =
          List.replicate (k - 1) (Event.sleep 500) := by
      interval_cases k
      · simp [loadLoop, hok, isReadFile, isSleep, List.range_succ]
      · obtain ⟨e1, h1⟩ := hfail 1 (by omega) (by omega)
        simp [loadLoop, hok, h1, isReadFile, isSleep, List.range_succ]
      · obtain ⟨e1, h1⟩ := hfail 1 (by omega) (by omega)
        obtain ⟨e2, h2⟩ := hfail 2 (by omega) (by omega)
        simp [loadLoop, hok, h1, h2, isReadFile, isSleep, List.range_succ]
      · obtain ⟨e1, h1⟩ := hfail 1 (by omega) (by omega)
        obtain ⟨e2, h2⟩ := hfail 2 (by omega) (by omega)
        obtain ⟨e3, h3⟩ := hfail 3 (by omega) (by omega)
        simp [loadLoop, hok, h1, h2, h3, isReadFile, isSleep, List.range_succ]
      · obtain ⟨e1, h1⟩ := hfail 1 (by omega) (by omega)
        obtain ⟨e2, h2⟩ := hfail 2 (by omega) (by omega)
        obtain ⟨e3, h3⟩ := hfail 3 (by omega) (by omega)
        obtain ⟨e4, h4⟩ := hfail 4 (by omega) (by omega)
        simp [loadLoop, hok, h1, h2, h3, h4, isReadFile, isSleep, List.range_succ]
    refine ⟨key.1, key.2.1, key.2.2, fun unmarshal rest => ?_⟩
    refine ⟨by simp [runListener, key.1], ?_⟩
    refine ⟨[Event.log .info (str "Waiting for config initialization"),
      Event.waitReady 10 .ready, Event.log .info (str "Config initialization complete")] ++
      (loadLoop configPath reads 5 1).1, by simp [runListener, key.1], ?_⟩
    rw [List.filter_append, key.2.1]
    simp [isReadFile]
  · intro e5 hfail h5
    obtain ⟨e1, h1⟩ := hfail 1 (by omega) (by omega)
    obtain ⟨e2, h2⟩ := hfail 2 (by omega) (by omega)
    obtain ⟨e3, h3⟩ := hfail 3 (by omega) (by omega)
    obtain ⟨e4, h4⟩ := hfail 4 (by omega) (by omega)
    have key : (loadLoop configPath reads 5 1).2 =
          .returned (str "failed to read config.json: " ++ e5) ∧
        (loadLoop configPath reads 5 1).1.filter isReadFile =
          (List.range 5).map (fun i => Event.readFile (i + 1)) ∧
        (loadLoop configPath reads 5 1).1.filter isSleep =
          List.replicate 4 (Event.sleep 500) := by
      simp [loadLoop, h1, h2, h3, h4, h5, isReadFile, isSleep, List.range_succ]
    refine ⟨key.1, key.2.1, key.2.2, fun unmarshal rest => ?_⟩
    refine ⟨by simp [runListener, key.1], ?_⟩
    have hev : (runListener configPath .ready reads unmarshal rest).events =
        [Event.log .info (str "Waiting for config initialization"),
          Event.waitReady 10 .ready, Event.log .info (str "Config initialization complete")] ++
        (loadLoop configPath reads 5 1).1 := by
      simp [runListener, key.1]
    rw [hev, List.filter_append, key.2.1]
    simp [isReadFile]
  · intro e1 e2 data h1 h2 h3
    simp [loadLoop, h1, h2, h3, isReadFile]

theorem loadLoop_bounded_retry_witness :
    ((loadLoop (str "config.json") thirdReadSucceeds 5 1).2 = .proceed oldDocument ∧
      (loadLoop (str "config.json") thirdReadSucceeds 5 1).1.filter isReadFile =
        [Event.readFile 1, Event.readFile 2, Event.readFile 3]) ∧
      ((loadLoop (str "config.json") neverReadable 5 1).2 =
          .returned (str "failed to read config.json: " ++ str "access denied") ∧
        (loadLoop (str "config.json") neverReadable 5 1).1.filter isSleep =
          List.replicate 4 (Event.sleep 500)) :=
  ⟨(loadLoop_bounded_retry (str "config.json") thirdReadSucceeds).2.2
      (str "sharing violation") (str "sharing violation") oldDocument rfl rfl rfl,
    ((loadLoop_bounded_retry (str "config.json") neverReadable).2.1 (str "access denied")
      (fun _ _ _ => ⟨_, rfl⟩) rfl).1,
    ((loadLoop_bounded_retry (str "config.json") neverReadable).2.1 (str "access denied")
      (fun _ _ _ => ⟨_, rfl⟩) rfl).2.2.1⟩

/-- C8: `runListener` starts by waiting on the `configReady` gate with a 10-second timeout. If
the timeout case runs, it returns the readiness-timeout error and does nothing else: no read
of the registry file and nothing of what follows the load. In every run the first two steps are the
"waiting" log entry and the wait itself, and every step that is neither a log entry nor that
wait (so every read of the registry file and everything after the load) comes after a wait
that ended with the gate fired. -/
theorem runListener_gated (configPath : GoString) (reads : Nat → Except GoString GoString)
    (unmarshal : GoString → Except GoString Config)
    (rest : GoString → Config → ListenerResult) :
    runListener configPath .timedOut reads unmarshal rest =
        { err := some (str "timeout waiting for config initialization")
          events := [.log .info (str "Waiting for config initialization"),
            .waitReady 10 .timedOut,
            .log .error (str "Timeout waiting for config initialization")] } ∧
      (∀ gate, ∃ tail, (runListener configPath gate reads unmarshal rest).events =
        Event.log .info (str "Waiting for config initialization") ::
          Event.waitReady 10 gate :: tail) ∧
      (∀ gate pre e post,
        (runListener configPath gate reads unmarshal rest).events = pre ++ e :: post →
        isLog e = false → e ≠ Event.waitReady 10 gate →
        gate = .ready ∧ Event.waitReady 10 .ready ∈ pre) ∧
      (∀ gate n, Event.readFile n ∈ (runListener configPath gate reads unmarshal rest).events →
        gate = .ready) := by
  have hshape : ∀ gate, ∃ tail, (runListener configPath gate reads unmarshal rest).events =
      Event.log .info (str "Waiting for config initialization") ::
        Event.waitReady 10 gate :: tail := by
    intro gate
    cases gate with
    | timedOut => exact ⟨_, rfl⟩
    | ready =>
      simp only [runListener]
      split <;> exact ⟨_, rfl⟩
  have hpos : ∀ gate pre e post,
      (runListener configPath gate reads unmarshal rest).events = pre ++ e :: post →
      isLog e = false → e ≠ Event.waitReady 10 gate →
      gate = .ready ∧ Event.waitReady 10 .ready ∈ pre := by
    intro gate pre e post hev hlog hpre
    cases gate with
    | timedOut =>
      exfalso
      have h3 : pre ++ e :: post = [Event.log .info (str "Waiting for config initialization"),
          Event.waitReady 10 .timedOut,
          Event.log .error (str "Timeout waiting for config initialization")] := hev.symm
      match pre, h3 with
      | [], h3 =>
        simp only [List.nil_append, List.cons.injEq] at h3
        rw [h3.1] at hlog
        simp [isLog] at hlog
      | [x], h3 =>
        simp only [List.cons_append, List.nil_append, List.cons.injEq] at h3
        exact hpre h3.2.1
      | [x, y], h3 =>
        simp only [List.cons_append, List.nil_append, List.cons.injEq] at h3
        rw [h3.2.2.1] at hlog
        simp [isLog] at hlog
      | x :: y :: z :: more, h3 =>
        simp at h3
    | ready =>
      refine ⟨rfl, ?_⟩
      obtain ⟨tail, ht⟩ := hshape .ready
      rw [ht] at hev
      match pre, hev with
      | [], hev =>
        simp only [List.nil_append, List.cons.injEq] at hev
        rw [← hev.1] at hlog
        simp [isLog] at hlog
      | [x], hev =>
        simp only [List.cons_append, List.nil_append, List.cons.injEq] at hev
        exact absurd hev.2.1.symm hpre
      | x :: y :: more, hev =>
        simp only [List.cons_append, List.cons.injEq] at hev
        rw [← hev.2.1]
        simp
  refine ⟨rfl, hshape, hpos, ?_⟩
  intro gate n hmem
  obtain ⟨pre, post, hsplit⟩ := List.append_of_mem hmem
  exact (hpos gate pre _ post hsplit rfl (by simp)).1

/-! ## Magic packets: theorems -/

theorem getElem?_slice (s : List Nat) (a b k : Nat) (h : a + k < b) :
    (slice s a b)[k]? = s[a + k]? := by
  simp [slice, List.getElem?_drop, List.getElem?_take, h]

theorem getElem?_flatten_replicate (mac : List Nat) (hmac : mac.length = 6) (n k : Nat)
    (h : k < 6 * n) : (List.replicate n mac).flatten[k]? = mac[k % 6]? := by
  induction n generalizing k with
  | zero => omega
  | succ n ih =>
    rw [List.replicate_succ, List.flatten_cons, List.getElem?_append]
    by_cases hk : k < 6
    · simp [hmac, hk, Nat.mod_eq_of_lt hk]
    · rw [hmac]
      simp only [hk, if_false]
      rw [ih (k - 6) (by omega)]
      congr 1
      omega

theorem length_flatten_replicate (mac : List Nat) (hmac : mac.length = 6) (n : Nat) :
    (List.replicate n mac).flatten.length = 6 * n := by
  induction n with
  | zero => simp
  | succ n ih =>
    rw [List.replicate_succ, List.flatten_cons, List.length_append, ih, hmac]
    omega

theorem length_magicPacket (mac trailer : List Nat) (hmac : mac.length = 6) :
    (magicPacket mac trailer).length = 102 + trailer.length := by
  unfold magicPacket
  rw [List.length_append, List.length_append, length_flatten_replicate mac hmac,
    List.length_replicate]

theorem magicPacket_getElem?_sync (mac trailer : List Nat) (i : Nat) (hi : i < 6) :
    (magicPacket mac trailer)[i]? = some 0xFF := by
  unfold magicPacket
  rw [List.append_assoc, List.getElem?_append_left (by rw [List.length_replicate]; exact hi),
    List.getElem?_replicate, if_pos hi]

theorem magicPacket_getElem?_block (mac trailer : List Nat) (hmac : mac.length = 6) (i : Nat)
    (h6 : 6 ≤ i) (hi : i < 102) : (magicPacket mac trailer)[i]? = mac[(i - 6) % 6]? := by
  unfold magicPacket
  rw [List.append_assoc, List.getElem?_append_right (by rw [List.length_replicate]; exact h6),
    List.getElem?_append_left
      (by rw [length_flatten_replicate mac hmac, List.length_replicate]; omega)]
  simp only [List.length_replicate]
  exact getElem?_flatten_replicate mac hmac 16 (i - 6) (by omega)

/-- What a valid frame looks like, byte by byte. -/
theorem valid_getElem? (p : List Nat) (h : (parseMagicPacket p).valid = true) :
    (∀ j, j < 6 → p[j]? = some 0xFF) ∧
      (∀ j, 6 ≤ j → j < 102 → p[j]? = p[6 + (j - 6) % 6]?) := by
  unfold parseMagicPacket at h
  simp only at h
  split at h
  · rename_i hc
    obtain ⟨hlen, hsync, hblock⟩ := hc
    have hlen2 : 102 ≤ p.length := by omega
    have hmaclen : (slice p 6 12).length = 6 := by
      simp [slice]
      omega
    constructor
    · intro j hj
      have := getElem?_slice p 0 6 j (by omega)
      rw [hsync] at this
      simp only [Nat.zero_add] at this
      rw [← this, List.getElem?_replicate, if_pos hj]
    · intro j h6 hj
      have h1 := getElem?_slice p 6 102 (j - 6) (by omega)
      have h2 := getElem?_slice p 6 12 ((j - 6) % 6) (by omega)
      rw [hblock, getElem?_flatten_replicate _ hmaclen 16 (j - 6) (by omega)] at h1
      have e : 6 + (j - 6) = j := by omega
      rw [e] at h1
      rw [← h1, h2]
  · simp at h

/-- C10: for every 6-byte MAC and every trailer of 0, 4 or 6 bytes, parsing the payload
`FF x 6, MAC x 16, trailer` gives a valid frame whose target is that MAC; and replacing any
one of the first 102 bytes (the synchronisation bytes and the repeated-MAC block) by a
different byte gives an invalid frame. -/
theorem parseMagicPacket_valid_iff_intact (mac trailer : List Nat) (hmac : mac.length = 6)
    (htrailer : trailer.length = 0 ∨ trailer.length = 4 ∨ trailer.length = 6) :
    parseMagicPacket (magicPacket mac trailer) = { targetMAC := mac, valid := true } ∧
      ∀ i b, i < 102 → (magicPacket mac trailer)[i]? ≠ some b →
        (parseMagicPacket ((magicPacket mac trailer).set i b)).valid = false := by
  have hblen := length_flatten_replicate mac hmac 16
  constructor
  · have hlen := length_magicPacket mac trailer hmac
    have hsync : slice (magicPacket mac trailer) 0 6 = List.replicate 6 0xFF := by
      unfold slice magicPacket
      rw [List.append_assoc, List.take_left' (List.length_replicate 6 0xFF), List.drop_zero]
    have hblock : slice (magicPacket mac trailer) 6 102 = (List.replicate 16 mac).flatten := by
      unfold slice magicPacket
      rw [List.take_left' (by rw [List.length_append, List.length_replicate, hblen]),
        List.drop_left' (List.length_replicate 6 0xFF)]
    have hfirst : slice (magicPacket mac trailer) 6 12 = mac := by
      unfold slice magicPacket
      rw [show List.replicate 16 mac = mac :: List.replicate 15 mac from rfl, List.flatten_cons,
        List.append_assoc, List.append_assoc, ← List.append_assoc,
        List.take_left' (by rw [List.length_append, List.length_replicate, hmac]),
        List.drop_left' (List.length_replicate 6 0xFF)]
    unfold parseMagicPacket
    simp only [hsync, hblock, hfirst, hlen]
    rw [if_pos]
    refine ⟨?_, trivial, trivial⟩
    omega
  · intro i b hi hb
    cases hv : (parseMagicPacket ((magicPacket mac trailer).set i b)).valid with
    | false => rfl
    | true =>
      exfalso
      obtain ⟨hs, hbk⟩ := valid_getElem? _ hv
      have hlen := length_magicPacket mac trailer hmac
      have hset : ∀ j, ((magicPacket mac trailer).set i b)[j]? =
          if i = j then some b else (magicPacket mac trailer)[j]? := by
        intro j
        rw [List.getElem?_set]
        have : i < (magicPacket mac trailer).length := by omega
        simp [this]
      by_cases h6 : i < 6
      · have h1 := hs i h6
        rw [hset i, if_pos rfl] at h1
        apply hb
        rw [magicPacket_getElem?_sync mac trailer i h6, ← h1]
      · have h6 : 6 ≤ i := by omega
        by_cases h12 : i < 12
        · have hi1 := hbk i h6 hi
          have hj1 := hbk (i + 6) (by omega) (by omega)
          have e : (i + 6 - 6) % 6 = (i - 6) % 6 := by omega
          rw [e, ← hi1, hset i, if_pos rfl, hset (i + 6), if_neg (by omega),
            magicPacket_getElem?_block mac trailer hmac (i + 6) (by omega) (by omega), e] at hj1
          apply hb
          rw [magicPacket_getElem?_block mac trailer hmac i h6 hi, hj1]
        · have hi1 := hbk i h6 hi
          have hj1 := hbk (i - 6) (by omega) (by omega)
          have e : (i - 6 - 6) % 6 = (i - 6) % 6 := by omega
          rw [e, ← hi1, hset i, if_pos rfl, hset (i - 6), if_neg (by omega),
            magicPacket_getElem?_block mac trailer hmac (i - 6) (by omega) (by omega), e] at hj1
          apply hb
          rw [magicPacket_getElem?_block mac trailer hmac i h6 hi, hj1]

theorem parseMagicPacket_valid_iff_intact_witness :
    parseMagicPacket (magicPacket [0xAA, 0xBB, 0xCC, 0xDD, 0xEE, 0xFF] [1, 2, 3, 4]) =
        { targetMAC := [0xAA, 0xBB, 0xCC, 0xDD, 0xEE, 0xFF], valid := true } ∧
      ∀ i b, i < 102 →
        (magicPacket [0xAA, 0xBB, 0xCC, 0xDD, 0xEE, 0xFF] [1, 2, 3, 4])[i]? ≠ some b →
        (parseMagicPacket
          ((magicPacket [0xAA, 0xBB, 0xCC, 0xDD, 0xEE, 0xFF] [1, 2, 3, 4]).set i b)).valid =
          false :=
  parseMagicPacket_valid_iff_intact [0xAA, 0xBB, 0xCC, 0xDD, 0xEE, 0xFF] [1, 2, 3, 4] rfl
    (Or.inr (Or.inl rfl))

theorem runListener_gated_witness :
    runListener (str "config.json") .timedOut thirdReadSucceeds defaultUnmarshal bindFails =
        { err := some (str "timeout waiting for config initialization")
          events := [.log .info (str "Waiting for config initialization"),
            .waitReady 10 .timedOut,
            .log .error (str "Timeout waiting for config initialization")] } ∧
      Event.readFile 3 ∈
        (runListener (str "config.json") .ready thirdReadSucceeds defaultUnmarshal
          bindFails).events ∧
      Event.readFile 3 ∉
        (runListener (str "config.json") .timedOut thirdReadSucceeds defaultUnmarshal
          bindFails).events :=
  ⟨(runListener_gated (str "config.json") thirdReadSucceeds defaultUnmarshal bindFails).1,
    by decide,
    fun h => GateOutcome.noConfusion
      ((runListener_gated (str "config.json") thirdReadSucceeds defaultUnmarshal
        bindFails).2.2.2 .timedOut 3 h)⟩

/-! ## Sanity of the embedding -/

/-- The retry loop never needs more than its five rounds. -/
theorem loadLoop_fuel (configPath : GoString) (reads : Nat → Except GoString GoString) :
    (loadLoop configPath reads 5 1).2 ≠ .outOfFuel := by
  cases h1 : reads 1 <;> cases h2 : reads 2 <;> cases h3 : reads 3 <;> cases h4 : reads 4 <;>
    cases h5 : reads 5 <;> simp [loadLoop, h1, h2, h3, h4, h5]

/-- The rounds given to `stripLeading` by `TrimSpace` suffice: nothing is left to strip. -/
theorem stripLeading_done (encs : List GoString) (hne : ∀ e ∈ encs, e ≠ []) (fuel : Nat)
    (s : GoString) (hfuel : s.length ≤ fuel) :
    stripOne encs (stripLeading encs fuel s) = none := by
  induction fuel generalizing s with
  | zero =>
    obtain rfl : s = [] := List.length_eq_zero.1 (by omega)
    simp only [stripLeading, stripOne]
    cases hf : encs.find? (fun e => e.isPrefixOf ([] : GoString)) with
    | none => rfl
    | some e =>
      have h1 := List.find?_some hf
      have h2 := List.mem_of_find?_eq_some hf
      cases e with
      | nil => exact absurd rfl (hne _ h2)
      | cons c t => simp [List.isPrefixOf] at h1
  | succ fuel ih =>
    simp only [stripLeading]
    cases hs : stripOne encs s with
    | none => simpa using hs
    | some rest =>
      simp only
      apply ih
      unfold stripOne at hs
      cases hf : encs.find? (fun e => e.isPrefixOf s) with
      | none => simp [hf] at hs
      | some e =>
        simp only [hf, Option.some.injEq] at hs
        have h2 := List.mem_of_find?_eq_some hf
        have hpos : 0 < e.length := List.length_pos.2 (hne e h2)
        have hspos : 0 < s.length := by
          cases s with
          | nil =>
            have h1 := List.find?_some hf
            cases e with
            | nil => exact absurd rfl (hne _ h2)
            | cons c t => simp [List.isPrefixOf] at h1
          | cons c t => simp
        rw [← hs, List.length_drop]
        omega

/-- The registry built from `sampleRecords`: the later record wins the shared MAC. -/
theorem newConfig_sampleRecords :
    newConfig id sampleRecords =
      { Port := 7
        VMs := [(str "AA:BB:CC:DD:EE:FF", str "web02"), (str "00:15:5D:01:02:03", str "db01")]
        Host := str "0.0.0.0"
        Timeout := str "60" } := by
  decide

set_option maxRecDepth 20000 in
/-- The document written for `sampleRecords`. -/
theorem MarshalIndent_sampleRecords :
    MarshalIndent quotePlain (newConfig id sampleRecords) =
      .ok (str ("\x7b\n  \"port\": 7,\n  \"vms\": \x7b\n" ++
        "    \"00:15:5D:01:02:03\": \"db01\",\n    \"AA:BB:CC:DD:EE:FF\": \"web02\"\n  \x7d,\n" ++
        "  \"host\": \"0.0.0.0\",\n  \"timeout\": \"60\"\n\x7d")) := by
  decide

/-- The scan of `sampleShell`: `vm2` is skipped, the others are kept in order. -/
theorem listVMs_sampleShell :
    (listVMs sampleShell).vms =
      [⟨str "vm1", str "00:15:5d:01:02:03"⟩, ⟨str "vm3", str "00:15:5D:01:02:FF"⟩] := by
  decide

end HyperWol
